import Mathlib

/-!
Verification of the CodeRed room/round/vote state machine.

The definitions below are a shallow embedding of the server-side game
logic: `src/unnamed/part_000` (the game-state module: room store, buzz
vote engine, win evaluation, round control) and
`src/server/socketHandlers.js` (the socket event handlers and the
pause/resume round timer).  JavaScript `Map`s keyed by player id are
modelled as insertion-ordered lists, `Set`s as insertion-ordered
duplicate-free lists, `null`/`undefined` as `Option.none`, and
millisecond wall-clock timestamps as `Int` (all timestamp arithmetic in
the source stays inside the exact-integer range of IEEE doubles, and
`Math.floor(x / 1000)` on such values is integer floor division).
-/

set_option maxRecDepth 40000

namespace CodeRed

/-- A player entry of `room.players` (see `createRoom` / `addPlayerToRoom`
in `src/unnamed/part_000`). -/
structure Player where
  id : String
  name : String
  isHost : Bool
  isReady : Bool
  role : Option String
  disabled : Bool
deriving DecidableEq

/-- The in-flight elimination vote created by `handleBuzz`
(`src/unnamed/part_000` lines 297-305).  `votes` is the JS `Map` from
voter id to target id in insertion order; `skips` is the JS `Set` of
voter ids in insertion order. -/
structure BuzzVote where
  initiatorId : String
  initiatorName : String
  type : String
  votes : List (String × String)
  skips : List String
  startTime : Int
  duration : Int
deriving DecidableEq

/-- The per-round code artifact stored in `room.currentCode` by
`startRound`.  Only the fields the verified operations read are kept;
the random per-debugger `bugAssignments` map is not consulted by any
claimed operation. -/
structure CodeInfo where
  correctCode : String
  initialBuggyCode : String
deriving DecidableEq

/-- A room, after `createRoom` (`src/unnamed/part_000` lines 98-132).
`timerPaused` and `pausedTimeRemaining` are the fields written by
`pauseRoundTimer` / `resumeRoundTimer` in `src/server/socketHandlers.js`;
they are absent (`undefined`, i.e. `false` / `none`) on a fresh room.
`emptyTimeout` models the presence of the pending 30s empty-room
deletion timer. -/
structure Room where
  code : String
  hostId : Option String
  players : List Player
  gameState : String
  currentRound : Nat
  totalRounds : Nat
  roundStartTime : Option Int
  roundDuration : Int
  timerPaused : Bool
  pausedTimeRemaining : Option Int
  currentCode : Option CodeInfo
  currentBug : Option String
  bugger : Option String
  debuggers : List String
  buzzedPlayer : Option String
  activeVote : Option BuzzVote
  winner : Option String
  winReason : Option String
  createdAt : Int
  emptyTimeout : Bool
deriving DecidableEq

/-- `room.players.get(pid)` on the insertion-ordered player map. -/
def playersGet (ps : List Player) (pid : String) : Option Player :=
  ps.find? (fun p => p.id == pid)

/-- `room.players.has(pid)`. -/
def playersHas (ps : List Player) (pid : String) : Bool :=
  (playersGet ps pid).isSome

/-- `createRoom` (`src/unnamed/part_000` lines 98-132): fresh lobby room
with the host as its only player. -/
def createRoom (roomCode hostId hostName : String) (now : Int) : Room :=
  { code := roomCode
    hostId := some hostId
    players := [{ id := hostId, name := hostName, isHost := true,
                  isReady := false, role := none, disabled := false }]
    gameState := "lobby"
    currentRound := 0
    totalRounds := 1
    roundStartTime := none
    roundDuration := 90
    timerPaused := false
    pausedTimeRemaining := none
    currentCode := none
    currentBug := none
    bugger := none
    debuggers := []
    buzzedPlayer := none
    activeVote := none
    winner := none
    winReason := none
    createdAt := now
    emptyTimeout := false }

/-- `addPlayerToRoom` (`src/unnamed/part_000` lines 138-172); the second
component is the `error` field of the result. -/
def addPlayerToRoom (room : Room) (playerId playerName : String) :
    Room × Option String :=
  if room.players.length ≥ 6 then
    (room, some "Room is full")
  else if room.gameState != "lobby" then
    (room, some "Game already in progress")
  else
    let isFirstPlayer := room.players.length == 0
    let room1 :=
      { room with
        emptyTimeout := false
        players := room.players ++
          [{ id := playerId, name := playerName, isHost := isFirstPlayer,
             isReady := false, role := none, disabled := false }] }
    if isFirstPlayer then ({ room1 with hostId := some playerId }, none)
    else (room1, none)

/-- `removePlayerFromRoom` (`src/unnamed/part_000` lines 174-201):
deletes the player, promotes the first remaining player to host if the
host left, and schedules the empty-room deletion timer when the room
becomes empty. -/
def removePlayerFromRoom (room : Room) (playerId : String) : Room :=
  let remaining := room.players.filter (fun p => p.id != playerId)
  let room1 := { room with players := remaining }
  let room2 :=
    if room.hostId == some playerId then
      match remaining with
      | [] => { room1 with hostId := none }
      | h :: t =>
          { room1 with players := { h with isHost := true } :: t,
                       hostId := some h.id }
    else room1
  if room2.players.length == 0 then { room2 with emptyTimeout := true }
  else room2

/-- `assignRoles` (`src/unnamed/part_000` lines 219-230).  `shuffled`
stands for `shuffleArray(playerIds)`; `shuffleArray` lives in the
`utils` module, which is not part of the verified sources, so the
shuffled order is passed in by the caller (spec 4.2: a uniform shuffle
of the current player-id list).  On an empty list the JS code would
throw after writing `bugger = undefined`, `debuggers = []`; that point
is unreachable because `startGame` requires at least 3 players. -/
def assignRoles (room : Room) (shuffled : List String) : Room :=
  match shuffled with
  | [] => { room with bugger := none, debuggers := [] }
  | b :: rest =>
      { room with
        bugger := some b
        debuggers := rest
        players := room.players.map (fun p =>
          if p.id == b then { p with role := some "bugger" }
          else if rest.contains p.id then { p with role := some "debugger" }
          else p) }

/-- `startRound` (`src/unnamed/part_000` lines 254-283).  The code
sample with its randomly assigned bug injections is passed in as
`newCode` (bug assignment uses `Math.random`); the fields the verified
operations depend on are that `currentCode` becomes non-null, the round
clock restarts, and the buzz/vote state is cleared. -/
def startRound (room : Room) (now : Int) (newCode : CodeInfo) : Room :=
  { room with
    currentCode := some newCode
    roundStartTime := some now
    buzzedPlayer := none
    activeVote := none }

/-- `startGame` (`src/unnamed/part_000` lines 203-217). -/
def startGame (room : Room) (shuffled : List String) (newCode : CodeInfo)
    (now : Int) : Room × Option String :=
  if room.players.length < 3 then
    (room, some "Need at least 3 players to start")
  else
    (startRound
      (assignRoles { room with gameState := "playing", currentRound := 1 }
        shuffled)
      now newCode, none)

/-- Result of a game-state mutator as seen by its socket-handler caller:
`nullRes` is a `null` return, `errRes` an `{ error }` return, `okRes` a
successful return of the room, and `thrown` an uncaught `TypeError`. -/
inductive HandlerOutcome where
  | nullRes : HandlerOutcome
  | errRes : String → HandlerOutcome
  | okRes : HandlerOutcome
  | thrown : HandlerOutcome
deriving DecidableEq

/-- `handleBuzz` (`src/unnamed/part_000` lines 285-308).  Note the
source never consults `room.activeVote`: an enabled player's buzz
overwrites any open vote with a fresh one.  When the buzzer is not in
the player map, the JS code first writes `buzzedPlayer` and then throws
reading `player.name`. -/
def handleBuzz (room : Room) (playerId : String) (now : Int) :
    Room × HandlerOutcome :=
  if room.gameState != "playing" then (room, .nullRes)
  else
    match playersGet room.players playerId with
    | some player =>
        if player.disabled then
          (room, .errRes "You are disabled and cannot buzz")
        else
          ({ room with
             buzzedPlayer := some playerId
             activeVote := some
               { initiatorId := playerId
                 initiatorName := player.name
                 type := "vote_kick"
                 votes := []
                 skips := []
                 startTime := now
                 duration := 60000 } }, .okRes)
    | none => ({ room with buzzedPlayer := some playerId }, .thrown)

/-- `pauseRoundTimer` (`src/server/socketHandlers.js` lines 540-551):
freezes the clock and stores `max(0, roundDuration - elapsed)` seconds.
`roundStartTime` is always set when this runs (it is only invoked from
the buzz handler, during a round). -/
def pauseRoundTimer (room : Room) (now : Int) : Room :=
  if room.timerPaused then room
  else
    match room.roundStartTime with
    | none => room
    | some st =>
        let elapsed := Int.fdiv (now - st) 1000
        let remaining := room.roundDuration - elapsed
        { room with
          timerPaused := true
          pausedTimeRemaining := some (max 0 remaining) }

/-- `resumeRoundTimer` (`src/server/socketHandlers.js` lines 553-566):
rewrites `roundStartTime` so the recomputed remaining time equals the
stored snapshot, then deletes the snapshot.  `pausedTimeRemaining` is
always set when `timerPaused` is, since `pauseRoundTimer` is its only
writer. -/
def resumeRoundTimer (room : Room) (now : Int) : Room :=
  if !room.timerPaused then room
  else
    match room.pausedTimeRemaining with
    | none => room
    | some r =>
        { room with
          roundStartTime := some (now - (room.roundDuration - r) * 1000)
          timerPaused := false
          pausedTimeRemaining := none }

/-- The remaining-seconds computation shared by the round tick
(`src/server/socketHandlers.js` lines 525-526) and the resume broadcast
(lines 563-564): `roundDuration - floor((now - roundStartTime)/1000)`. -/
def computeRemaining (room : Room) (now : Int) : Int :=
  room.roundDuration - Int.fdiv (now - room.roundStartTime.getD 0) 1000

/-- The state effect of the `buzz` socket handler
(`src/server/socketHandlers.js` lines 185-211): run `handleBuzz`, and on
success pause the round timer. -/
def buzzAction (room : Room) (playerId : String) (now : Int) : Room :=
  match handleBuzz room playerId now with
  | (r, .okRes) => pauseRoundTimer r now
  | (r, _) => r

/-- `Map.set` on an insertion-ordered association list. -/
def mapSet (m : List (String × String)) (k v : String) :
    List (String × String) :=
  if m.any (fun e => e.1 == k) then
    m.map (fun e => if e.1 == k then (k, v) else e)
  else m ++ [(k, v)]

/-- `Set.add` on an insertion-ordered duplicate-free list. -/
def setAdd (s : List String) (x : String) : List String :=
  if s.contains x then s else s ++ [x]

/-- Result of `castBuzzVote` as seen by its caller: an `{ error }`
return, or `{ success: true, allVoted }`. -/
inductive CastOutcome where
  | errRes : String → CastOutcome
  | okRes : Bool → CastOutcome
deriving DecidableEq

/-- `castBuzzVote` (`src/unnamed/part_000` lines 310-369).  The checks
run in source order; every rejection leaves the room untouched.
`room.players.has(voterId)` followed by `room.players.get(voterId)` is
collapsed into one lookup (they agree on the same map). -/
def castBuzzVote (room : Room) (voterId targetVoteId : String) :
    Room × CastOutcome :=
  match room.activeVote with
  | none => (room, .errRes "No active vote")
  | some vote =>
      if vote.type != "vote_kick" then (room, .errRes "No active vote")
      else
        match playersGet room.players voterId with
        | none => (room, .errRes "You are not in this room")
        | some voter =>
            if voter.disabled then
              (room, .errRes "You are disabled and cannot vote")
            else if vote.votes.any (fun e => e.1 == voterId) ||
                vote.skips.contains voterId then
              (room, .errRes "You have already voted")
            else if targetVoteId == "skip" then
              let vote1 := { vote with skips := setAdd vote.skips voterId }
              let enabledCount :=
                (room.players.filter (fun p => !p.disabled)).length
              let total := vote1.votes.length + vote1.skips.length
              ({ room with activeVote := some vote1 },
               .okRes (total ≥ enabledCount))
            else
              match playersGet room.players targetVoteId with
              | none => (room, .errRes "Target player not found")
              | some target =>
                  if target.disabled then
                    (room, .errRes "Cannot vote for an already disabled player")
                  else if voterId == targetVoteId then
                    (room, .errRes "You cannot vote for yourself")
                  else
                    let vote1 :=
                      { vote with votes := mapSet vote.votes voterId targetVoteId }
                    let enabledCount :=
                      (room.players.filter (fun p => !p.disabled)).length
                    let total := vote1.votes.length + vote1.skips.length
                    ({ room with activeVote := some vote1 },
                     .okRes (total ≥ enabledCount))

/-- One `voteCount.set(target, (voteCount.get(target) || 0) + 1)` step
of the tally loop in `getBuzzVoteResult`. -/
def bumpCount (acc : List (String × Nat)) (t : String) :
    List (String × Nat) :=
  if acc.any (fun e => e.1 == t) then
    acc.map (fun e => if e.1 == t then (e.1, e.2 + 1) else e)
  else acc ++ [(t, 1)]

/-- The per-target tally built from `votes.values()` in insertion order
(`src/unnamed/part_000` lines 384-387). -/
def voteCountOf (targets : List String) : List (String × Nat) :=
  targets.foldl bumpCount []

/-- One iteration of the max / second-max / kick-candidate loop
(`src/unnamed/part_000` lines 393-401). -/
def topTwoStep (acc : Nat × Nat × Option String) (e : String × Nat) :
    Nat × Nat × Option String :=
  if e.2 > acc.1 then (e.2, acc.1, some e.1)
  else if e.2 > acc.2.1 then (acc.1, e.2, acc.2.2)
  else acc

/-- `(maxVotes, secondMaxVotes, playerToKick)` after the tally loop. -/
def topTwo (l : List (String × Nat)) : Nat × Nat × Option String :=
  l.foldl topTwoStep (0, 0, none)

/-- The object returned by `getBuzzVoteResult`
(`src/unnamed/part_000` lines 411-422). -/
structure VoteResult where
  shouldKick : Bool
  playerToKick : Option String
  kickedPlayerName : Option String
  maxVotes : Nat
  voteCount : List (String × Nat)
  votedCount : Nat
  skipCount : Nat
  totalPlayers : Nat
  hasClearMajority : Bool
  buggerVotedOut : Bool
deriving DecidableEq

/-- `getBuzzVoteResult` (`src/unnamed/part_000` lines 371-423). -/
def getBuzzVoteResult (room : Room) : Option VoteResult :=
  match room.activeVote with
  | none => none
  | some vote =>
      let voteCount := voteCountOf (vote.votes.map Prod.snd)
      let m := topTwo voteCount
      let maxVotes := m.1
      let secondMaxVotes := m.2.1
      let playerToKick := m.2.2
      let hasClearMajority :=
        decide (0 < maxVotes) && decide (secondMaxVotes < maxVotes)
      let shouldKick := hasClearMajority
      let kickedPlayerName :=
        playerToKick.bind (fun pid => (playersGet room.players pid).map Player.name)
      let buggerVotedOut := shouldKick && (playerToKick == room.bugger)
      some
        { shouldKick := shouldKick
          playerToKick := playerToKick
          kickedPlayerName := kickedPlayerName
          maxVotes := maxVotes
          voteCount := voteCount
          votedCount := vote.votes.length
          skipCount := vote.skips.length
          totalPlayers := (room.players.filter (fun p => !p.disabled)).length
          hasClearMajority := hasClearMajority
          buggerVotedOut := buggerVotedOut }

/-- `clearBuzzVote` (`src/unnamed/part_000` lines 425-431). -/
def clearBuzzVote (room : Room) : Room :=
  { room with activeVote := none }

/-- `checkBuggerWin` (`src/unnamed/part_000` lines 450-471). -/
def checkBuggerWin (room : Room) : Bool :=
  let enabledDebuggers := room.debuggers.filter (fun id =>
    playersHas room.players id &&
      !((playersGet room.players id).map Player.disabled).getD false)
  let buggerEnabled :=
    match room.bugger with
    | some b =>
        playersHas room.players b &&
          !((playersGet room.players b).map Player.disabled).getD false
    | none => false
  if enabledDebuggers.length == 0 && buggerEnabled then true
  else
    let enabledPlayers := room.players.filter (fun p => !p.disabled)
    if enabledPlayers.length == 2 && buggerEnabled then true
    else false

/-- `checkDebuggersWin` (`src/unnamed/part_000` lines 473-478). -/
def checkDebuggersWin (room : Room) : Bool :=
  match room.bugger with
  | some b =>
      !(playersHas room.players b) ||
        ((playersGet room.players b).map Player.disabled).getD false
  | none => true

/-- State effect of `handleBuzzVoteEnd`
(`src/server/socketHandlers.js` lines 659-775): resolve the open vote,
disable the kicked player on a clear majority, end the game when the
bugger was voted out or `checkBuggerWin` fires, and otherwise resume the
round timer. -/
def handleBuzzVoteEnd (room : Room) (now : Int) : Room :=
  match room.activeVote with
  | none => room
  | some _ =>
      match getBuzzVoteResult room with
      | none => room
      | some res =>
          if !res.hasClearMajority then
            resumeRoundTimer
              (clearBuzzVote { room with buzzedPlayer := none }) now
          else
            let room1 :=
              match res.playerToKick with
              | some pid =>
                  { room with players := room.players.map (fun p =>
                      if p.id == pid then { p with disabled := true } else p) }
              | none => room
            if res.buggerVotedOut then
              clearBuzzVote { room1 with gameState := "results" }
            else if checkBuggerWin room1 then
              clearBuzzVote { room1 with gameState := "results" }
            else
              resumeRoundTimer
                (clearBuzzVote { room1 with buzzedPlayer := none }) now

/-- State effect shared by the `leaveRoom` handler
(`src/server/socketHandlers.js` lines 419-458) and the `disconnect`
handler (lines 460-501): if a vote is open it is cleared (and
`voteCancelled` broadcast), then the player is removed.  Neither handler
touches `timerPaused` or `pausedTimeRemaining`. -/
def leaveRoomAction (room : Room) (playerId : String) : Room :=
  let room1 := if room.activeVote.isSome then clearBuzzVote room else room
  removePlayerFromRoom room1 playerId

/-- State effect of the `playerReady` handler
(`src/server/socketHandlers.js` lines 110-128): toggle the flag. -/
def readyToggle (room : Room) (playerId : String) : Room :=
  match playersGet room.players playerId with
  | none => room
  | some _ =>
      { room with players := room.players.map (fun p =>
          if p.id == playerId then { p with isReady := !p.isReady } else p) }

/-- `resetGame` (`src/unnamed/part_000` lines 527-549). -/
def resetGame (room : Room) : Room :=
  { room with
    gameState := "lobby"
    currentRound := 0
    roundStartTime := none
    currentCode := none
    bugger := none
    debuggers := []
    buzzedPlayer := none
    activeVote := none
    winner := none
    winReason := none
    players := room.players.map (fun p =>
      { p with isReady := false, role := none, disabled := false }) }

/-! ### The final-round residual-bug checks of `endRound`

`endRound` (`src/unnamed/part_000` lines 480-525) runs two regex checks
against the submitted final code, `/divide\([^)]*\)\s*{[^}]*return/s`
and `/squareRoot\([^)]*\)\s*{[^}]*return/s`, keeping the first
(leftmost) match.  Each pattern is deterministic except for the greedy
`[^}]*`, which backtracks so the match ends at the last `return` that
occurs before the first `}` after the opening brace.  The functions
below implement exactly that semantics for these two concrete
patterns. -/

/-- The `{` character (written by code point to keep braces out of
literals). -/
def lbrace : Char := Char.ofNat 123

/-- The `}` character. -/
def rbrace : Char := Char.ofNat 125

/-- Whether `pat` is a prefix of `s`. -/
def matchesAt : List Char → List Char → Bool
  | [], _ => true
  | _ :: _, [] => false
  | p :: ps, c :: cs => p == c && matchesAt ps cs

/-- Whether `pat` occurs as a contiguous substring of `s`
(JS `String.prototype.includes`). -/
def containsSub (pat : List Char) : List Char → Bool
  | [] => matchesAt pat []
  | c :: rest => matchesAt pat (c :: rest) || containsSub pat rest

/-- JS `\s` on the code points appearing in the samples. -/
def isJsSpace (c : Char) : Bool :=
  c == ' ' || c == '\t' || c == '\n' || c == '\r' ||
    c == Char.ofNat 11 || c == Char.ofNat 12

/-- End position (start + pattern length) of the last occurrence of
`pat` in `l`, if any. -/
def lastEndAux (pat : List Char) : List Char → Nat → Option Nat
  | [], pos => if matchesAt pat [] then some pos else none
  | c :: rest, pos =>
      match lastEndAux pat rest (pos + 1) with
      | some e => some e
      | none =>
          if matchesAt pat (c :: rest) then some (pos + pat.length)
          else none

/-- End position of the last occurrence of `pat` in `l`. -/
def lastEndOf (pat l : List Char) : Option Nat := lastEndAux pat l 0

/-- The characters of `return`. -/
def returnPat : List Char := "return".data

/-- Attempt the `[^)]*\)\s*{[^}]*return` tail of the bug-check regex at
the position just after the method-name header, returning the matched
tail.  The greedy `[^}]*` ends the match at the last `return` before
the first `}`. -/
def guardBodyMatch (s : List Char) : Option (List Char) :=
  let args := s.takeWhile (fun c => c != ')')
  match s.drop args.length with
  | ')' :: rest2 =>
      let ws := rest2.takeWhile isJsSpace
      match rest2.drop ws.length with
      | b :: rest4 =>
          if b == lbrace then
            let region := rest4.takeWhile (fun c => c != rbrace)
            match lastEndOf returnPat region with
            | some e => some (args ++ ')' :: ws ++ b :: region.take e)
            | none => none
          else none
      | [] => none
  | _ => none

/-- Leftmost match of `header` followed by `[^)]*\)\s*{[^}]*return`
(JS `String.prototype.match` without the `g` flag): try every start
position in order; a failed tail at one start falls through to the
next start. -/
def findGuardedMatch (header : List Char) : List Char → Option (List Char)
  | [] => none
  | c :: rest =>
      if matchesAt header (c :: rest) then
        match guardBodyMatch ((c :: rest).drop header.length) with
        | some body => some (header ++ body)
        | none => findGuardedMatch header rest
      else findGuardedMatch header rest

/-- The `divide(` literal of the first regex. -/
def divideHeader : List Char := "divide(".data

/-- The `squareRoot(` literal of the second regex. -/
def squareRootHeader : List Char := "squareRoot(".data

/-- `s.includes(pat)` on strings. -/
def strIncludes (s pat : String) : Bool := containsSub pat.data s.data

/-- `endRound` (`src/unnamed/part_000` lines 480-525).  `parseOk`
stands for the `new Function(finalCode)` syntax-validity probe (the
JavaScript parser, an external collaborator: `parseOk code = true` iff
the engine parses `code` without throwing; the thrown message appended
after `Syntax error: ` is not modelled).  `shuffled` and `newCode` feed
`assignRoles` / `startRound` on the next-round branch exactly as in
`startGame`. -/
def endRound (parseOk : String → Bool) (shuffled : List String)
    (newCode : CodeInfo) (now : Int) (room : Room)
    (finalCode : Option String) : Room :=
  if room.currentRound ≥ room.totalRounds then
    let room1 := { room with gameState := "results" }
    let checks : Bool × Bool × Bool :=
      match finalCode with
      | some fc =>
          if room.currentCode.isSome then
            let divideErr :=
              match findGuardedMatch divideHeader fc.data with
              | some m => !containsSub "=== 0".data m
              | none => false
            let sqrtErr :=
              match findGuardedMatch squareRootHeader fc.data with
              | some m => !containsSub "< 0".data m
              | none => false
            (divideErr, sqrtErr, !parseOk fc)
          else (false, false, false)
      | none => (false, false, false)
    let errorDetails :=
      (if checks.1 then ["Divide bug: missing zero check"] else []) ++
        (if checks.2.1 then ["SquareRoot bug: missing negative check"] else []) ++
        (if checks.2.2 then ["Syntax error"] else [])
    if checks.1 || checks.2.1 || checks.2.2 then
      { room1 with
        winner := some "bugger"
        winReason := some ("Sabotager wins! " ++
          (if errorDetails.length > 0 then String.intercalate ", " errorDetails
           else "Bugs still in code")) }
    else
      { room1 with
        winner := some "debuggers"
        winReason := some "Fixers win! All bugs resolved!" }
  else
    startRound
      (assignRoles { room with currentRound := room.currentRound + 1 }
        shuffled)
      now newCode

/-! ### The event-step relation

One constructor per room-mutating task of the single-threaded event
loop (`src/server/socketHandlers.js`): join, ready toggle, game start,
buzz, vote cast, vote resolution (quorum or 60s timeout), round end
(timeout or fix submission), leave/disconnect, and `playAgain`.
Wall-clock readings, the shuffle produced by `shuffleArray`, the
randomly assembled round code artifact, and the external JS parser are
universally quantified data of each step, which only widens the set of
reachable states. -/
inductive Step : Room → Room → Prop where
  | join (r : Room) (pid pname : String) :
      Step r (addPlayerToRoom r pid pname).1
  | ready (r : Room) (pid : String) : Step r (readyToggle r pid)
  | start (r : Room) (shuffled : List String) (newCode : CodeInfo)
      (now : Int) : Step r (startGame r shuffled newCode now).1
  | buzz (r : Room) (pid : String) (now : Int) :
      Step r (buzzAction r pid now)
  | cast (r : Room) (voterId targetVoteId : String) :
      Step r (castBuzzVote r voterId targetVoteId).1
  | resolve (r : Room) (now : Int) : Step r (handleBuzzVoteEnd r now)
  | roundEnd (r : Room) (parseOk : String → Bool)
      (shuffled : List String) (newCode : CodeInfo) (now : Int)
      (finalCode : Option String) :
      Step r (endRound parseOk shuffled newCode now r finalCode)
  | leave (r : Room) (pid : String) : Step r (leaveRoomAction r pid)
  | reset (r : Room) : Step r (resetGame r)

/-- Rooms reachable from a fresh `createRoom` state by event-loop
steps. -/
inductive Reachable : Room → Prop where
  | init (code hostId hostName : String) (now : Int) :
      Reachable (createRoom code hostId hostName now)
  | step {r r' : Room} : Reachable r → Step r r' → Reachable r'

/-- The mutual-exclusion invariant of spec section 3 together with the
auxiliary fact making the buzz case go through: a room that is playing
has a round start time (set by `startRound`). -/
def RoomInv (r : Room) : Prop :=
  (r.activeVote.isSome → r.timerPaused = true) ∧
    (r.gameState = "playing" → r.roundStartTime.isSome)

/-! ### Concrete states used as inputs of the settled claims -/

/-- The `correctCode` template literal of the single code sample
(`src/unnamed/part_000` lines 10-74), with the JS template escapes
(backslash-backtick, backslash-dollar-brace) resolved.  Braces,
apostrophes and backticks are written as code-point escapes. -/
def correctCalculatorCode : String :=
  "class ScientificCalculator \x7b\n  constructor() \x7b\n    this.memory = 0;\n" ++
  "    this.history = [];\n  \x7d\n\n  add(a, b) \x7b\n    const result = a + b;\n" ++
  "    this.history.push(\x60$\x7ba\x7d + $\x7bb\x7d = $\x7bresult\x7d\x60);\n" ++
  "    return result;\n  \x7d\n\n  subtract(a, b) \x7b\n    const result = a - b;\n" ++
  "    this.history.push(\x60$\x7ba\x7d - $\x7bb\x7d = $\x7bresult\x7d\x60);\n" ++
  "    return result;\n  \x7d\n\n  multiply(a, b) \x7b\n    const result = a * b;\n" ++
  "    this.history.push(\x60$\x7ba\x7d * $\x7bb\x7d = $\x7bresult\x7d\x60);\n" ++
  "    return result;\n  \x7d\n\n  divide(a, b) \x7b\n    if (b === 0) \x7b\n" ++
  "      throw new Error(\x27Cannot divide by zero\x27);\n    \x7d\n" ++
  "    const result = a / b;\n" ++
  "    this.history.push(\x60$\x7ba\x7d / $\x7bb\x7d = $\x7bresult\x7d\x60);\n" ++
  "    return result;\n  \x7d\n\n  power(base, exponent) \x7b\n" ++
  "    const result = Math.pow(base, exponent);\n" ++
  "    this.history.push(\x60$\x7bbase\x7d ^ $\x7bexponent\x7d = $\x7bresult\x7d\x60);\n" ++
  "    return result;\n  \x7d\n\n  squareRoot(n) \x7b\n    if (n < 0) \x7b\n" ++
  "      throw new Error(\x27Cannot calculate square root of negative number\x27);\n" ++
  "    \x7d\n    const result = Math.sqrt(n);\n" ++
  "    this.history.push(\x60\u00E2\u02C6\u0161$\x7bn\x7d = $\x7bresult\x7d\x60);\n" ++
  "    return result;\n  \x7d\n\n  increment(n) \x7b\n    const result = n + 1;\n" ++
  "    this.history.push(\x60++$\x7bn\x7d = $\x7bresult\x7d\x60);\n    return result;\n" ++
  "  \x7d\n\n  decrement(n) \x7b\n    const result = n - 1;\n" ++
  "    this.history.push(\x60--$\x7bn\x7d = $\x7bresult\x7d\x60);\n    return result;\n" ++
  "  \x7d\n\n\n  getHistory() \x7b\n    return this.history;\n  \x7d\n\x7d"

/-- The result of `injectBug(injectBug(correctCode, "bug1"), "bug2")`
(`src/unnamed/part_000` lines 232-252), written out: each replacement
strips the guard clause from its method, leaving the method to start
directly with the `const result` line.  This is the `initialBuggyCode`
a round starts with when both bugs are assigned. -/
def buggedCalculatorCode : String :=
  "class ScientificCalculator \x7b\n  constructor() \x7b\n    this.memory = 0;\n" ++
  "    this.history = [];\n  \x7d\n\n  add(a, b) \x7b\n    const result = a + b;\n" ++
  "    this.history.push(\x60$\x7ba\x7d + $\x7bb\x7d = $\x7bresult\x7d\x60);\n" ++
  "    return result;\n  \x7d\n\n  subtract(a, b) \x7b\n    const result = a - b;\n" ++
  "    this.history.push(\x60$\x7ba\x7d - $\x7bb\x7d = $\x7bresult\x7d\x60);\n" ++
  "    return result;\n  \x7d\n\n  multiply(a, b) \x7b\n    const result = a * b;\n" ++
  "    this.history.push(\x60$\x7ba\x7d * $\x7bb\x7d = $\x7bresult\x7d\x60);\n" ++
  "    return result;\n  \x7d\n\n  divide(a, b) \x7b\n    const result = a / b;\n" ++
  "    this.history.push(\x60$\x7ba\x7d / $\x7bb\x7d = $\x7bresult\x7d\x60);\n" ++
  "    return result;\n  \x7d\n\n  power(base, exponent) \x7b\n" ++
  "    const result = Math.pow(base, exponent);\n" ++
  "    this.history.push(\x60$\x7bbase\x7d ^ $\x7bexponent\x7d = $\x7bresult\x7d\x60);\n" ++
  "    return result;\n  \x7d\n\n  squareRoot(n) \x7b\n    const result = Math.sqrt(n);\n" ++
  "    this.history.push(\x60\u00E2\u02C6\u0161$\x7bn\x7d = $\x7bresult\x7d\x60);\n" ++
  "    return result;\n  \x7d\n\n  increment(n) \x7b\n    const result = n + 1;\n" ++
  "    this.history.push(\x60++$\x7bn\x7d = $\x7bresult\x7d\x60);\n    return result;\n" ++
  "  \x7d\n\n  decrement(n) \x7b\n    const result = n - 1;\n" ++
  "    this.history.push(\x60--$\x7bn\x7d = $\x7bresult\x7d\x60);\n    return result;\n" ++
  "  \x7d\n\n\n  getHistory() \x7b\n    return this.history;\n  \x7d\n\x7d"

/-- Player fixtures. -/
def alice : Player :=
  { id := "p1", name := "Alice", isHost := true, isReady := true,
    role := some "debugger", disabled := false }

/-- Player fixtures. -/
def bob : Player :=
  { id := "p2", name := "Bob", isHost := false, isReady := true,
    role := some "bugger", disabled := false }

/-- Player fixtures. -/
def carol : Player :=
  { id := "p3", name := "Carol", isHost := false, isReady := true,
    role := some "debugger", disabled := false }

/-- A three-player room mid-round: the state right after `startGame` and
`startRoundTimer`, with the sample's fully bugged code as the round
artifact (`totalRounds` keeps its default 1). -/
def basePlayingRoom : Room :=
  { code := "ABCD", hostId := some "p1", players := [alice, bob, carol],
    gameState := "playing", currentRound := 1, totalRounds := 1,
    roundStartTime := some 100000, roundDuration := 90,
    timerPaused := false, pausedTimeRemaining := none,
    currentCode := some { correctCode := correctCalculatorCode,
                          initialBuggyCode := buggedCalculatorCode },
    currentBug := none, bugger := some "p2", debuggers := ["p1", "p3"],
    buzzedPlayer := none, activeVote := none, winner := none,
    winReason := none, createdAt := 0, emptyTimeout := false }

/-- An open vote in which Carol has already voted to kick Alice. -/
def openVote : BuzzVote :=
  { initiatorId := "p2", initiatorName := "Bob", type := "vote_kick",
    votes := [("p3", "p1")], skips := [], startTime := 100500,
    duration := 60000 }

/-- `basePlayingRoom` while `openVote` is in progress: Bob buzzed, the
round timer is paused with 42 seconds left. -/
def openVoteRoom : Room :=
  { basePlayingRoom with
    buzzedPlayer := some "p2"
    activeVote := some openVote
    timerPaused := true
    pausedTimeRemaining := some 42 }

/-- The spec 8 scenario vote: with three enabled players, one votes
Alice, one votes Bob, one skips. -/
def scenarioVote : BuzzVote :=
  { initiatorId := "p2", initiatorName := "Bob", type := "vote_kick",
    votes := [("p2", "p1"), ("p3", "p2")], skips := ["p1"],
    startTime := 100500, duration := 60000 }

/-- `basePlayingRoom` carrying `scenarioVote`. -/
def scenarioRoom : Room :=
  { basePlayingRoom with
    buzzedPlayer := some "p2"
    activeVote := some scenarioVote
    timerPaused := true
    pausedTimeRemaining := some 42 }

/-- The resolution object `getBuzzVoteResult` computes for
`scenarioRoom`: a one-one tie, no clear majority. -/
def scenarioRes : VoteResult :=
  { shouldKick := false, playerToKick := some "p1",
    kickedPlayerName := some "Alice", maxVotes := 1,
    voteCount := [("p1", 1), ("p2", 1)], votedCount := 2, skipCount := 1,
    totalPlayers := 3, hasClearMajority := false, buggerVotedOut := false }

/-- After Carol's elimination two enabled players remain and one of
them (Bob) is the bugger. -/
def twoLeftRoom : Room :=
  { basePlayingRoom with
    players := [alice, bob, { carol with disabled := true }] }

/-- A minimal round artifact for reachability chains. -/
def demoCode : CodeInfo := { correctCode := "", initialBuggyCode := "" }

/-- A reachable state with an open vote: create, two joins, game start,
then Alice buzzes. -/
def demoRoom : Room :=
  buzzAction
    (startGame
      ((addPlayerToRoom
        ((addPlayerToRoom (createRoom "ROOM" "p1" "Alice" 0)
          "p2" "Bob").1)
        "p3" "Carol").1)
      ["p2", "p1", "p3"] demoCode 100000).1
    "p1" 100500

/-! ### Theorems settling the claims -/

/-- C1: the claim states that while `activeVote != none` a buzz
(`handleBuzz`) is rejected as a no-op, creating no new vote and leaving
the room unchanged.  The code contradicts this: `handleBuzz` never
consults `room.activeVote`, so on `openVoteRoom` — a playing room with
an open vote that already holds Carol's cast vote — Alice's buzz
succeeds, replaces the open vote with a fresh empty one (discarding the
cast vote) and overwrites `buzzedPlayer`. -/
theorem handleBuzz_overwrites_open_vote :
    openVoteRoom.activeVote = some openVote ∧
    openVote.votes = [("p3", "p1")] ∧
    (handleBuzz openVoteRoom "p1" 5000).2 = HandlerOutcome.okRes ∧
    (handleBuzz openVoteRoom "p1" 5000).1.activeVote =
      some { initiatorId := "p1", initiatorName := "Alice",
             type := "vote_kick", votes := [], skips := [],
             startTime := 5000, duration := 60000 } ∧
    (handleBuzz openVoteRoom "p1" 5000).1.activeVote ≠
      openVoteRoom.activeVote ∧
    (handleBuzz openVoteRoom "p1" 5000).1.buzzedPlayer = some "p1" := by
  decide

/-- C2: the claim states that leave/disconnect during an open vote
cancels the vote and resumes the round timer.  The cancellation half
holds — the vote is cleared and nobody is eliminated — but neither the
`leaveRoom` nor the `disconnect` handler calls `resumeRoundTimer`, so
`timerPaused` stays `true` and the frozen snapshot stays in place:
after Carol leaves `openVoteRoom`, the vote is gone yet the timer is
still paused. -/
theorem leaveRoom_cancels_vote_but_never_resumes_timer :
    openVoteRoom.activeVote.isSome = true ∧
    openVoteRoom.timerPaused = true ∧
    openVoteRoom.pausedTimeRemaining = some 42 ∧
    (leaveRoomAction openVoteRoom "p3").activeVote = none ∧
    (leaveRoomAction openVoteRoom "p3").players.map Player.id =
      ["p1", "p2"] ∧
    (∀ p ∈ (leaveRoomAction openVoteRoom "p3").players,
      p.disabled = false) ∧
    (leaveRoomAction openVoteRoom "p3").timerPaused = true ∧
    (leaveRoomAction openVoteRoom "p3").pausedTimeRemaining = some 42 := by
  decide

/-- Resuming a paused timer with stored snapshot `R` rewrites
`roundStartTime` so that the shared remaining-time computation yields
exactly `R` again at the moment of resumption. -/
theorem computeRemaining_resume (room : Room) (R t' : Int)
    (hp : room.timerPaused = true)
    (hr : room.pausedTimeRemaining = some R) :
    computeRemaining (resumeRoundTimer room t') t' = R := by
  have hres : resumeRoundTimer room t' =
      { room with
        roundStartTime :=
          some (t' - (room.roundDuration - R) * 1000)
        timerPaused := false
        pausedTimeRemaining := none } := by
    simp [resumeRoundTimer, hp, hr]
  rw [hres]
  show room.roundDuration -
      Int.fdiv (t' -
        (some (t' - (room.roundDuration - R) * 1000)).getD 0) 1000 = R
  rw [Option.getD_some]
  have harg : t' - (t' - (room.roundDuration - R) * 1000) =
      (room.roundDuration - R) * 1000 := by ring
  rw [harg, Int.mul_fdiv_cancel _ (by norm_num : (1000 : Int) ≠ 0)]
  ring

/-- Dual of `computeRemaining_resume`: the resumed timer reports
running. -/
theorem resume_unpauses (room : Room) (R t' : Int)
    (hp : room.timerPaused = true)
    (hr : room.pausedTimeRemaining = some R) :
    (resumeRoundTimer room t').timerPaused = false := by
  simp [resumeRoundTimer, hp, hr]

/-- C5: pausing the round timer stores
`max(0, roundDuration - elapsed)`, and resuming rewrites
`roundStartTime` so that the recomputed remaining time equals the
stored snapshot — the timer continues from the frozen value rather than
restarting at the full duration. -/
theorem pause_resume_preserves_remaining (room : Room) (st t t' : Int)
    (hp : room.timerPaused = false)
    (hst : room.roundStartTime = some st) :
    (pauseRoundTimer room t).timerPaused = true ∧
    (pauseRoundTimer room t).pausedTimeRemaining =
      some (max 0 (room.roundDuration - Int.fdiv (t - st) 1000)) ∧
    (resumeRoundTimer (pauseRoundTimer room t) t').timerPaused = false ∧
    computeRemaining (resumeRoundTimer (pauseRoundTimer room t) t') t' =
      max 0 (room.roundDuration - Int.fdiv (t - st) 1000) := by
  have h1 : pauseRoundTimer room t =
      { room with
        timerPaused := true
        pausedTimeRemaining :=
          some (max 0 (room.roundDuration - Int.fdiv (t - st) 1000)) } := by
    simp [pauseRoundTimer, hp, hst]
  rw [h1]
  exact ⟨rfl, rfl, resume_unpauses _ _ t' rfl rfl,
    computeRemaining_resume _ _ t' rfl rfl⟩

/-- Witness for C5 at concrete inputs: pausing `basePlayingRoom`
(started at 100000ms) at 135300ms stores 55 seconds, and resuming at
140000ms recomputes exactly 55 seconds of remaining time. -/
theorem pause_resume_preserves_remaining_witness :
    basePlayingRoom.timerPaused = false ∧
    basePlayingRoom.roundStartTime = some 100000 ∧
    ((pauseRoundTimer basePlayingRoom 135300).timerPaused = true ∧
      (pauseRoundTimer basePlayingRoom 135300).pausedTimeRemaining =
        some (max 0 (basePlayingRoom.roundDuration -
          Int.fdiv (135300 - 100000) 1000)) ∧
      (resumeRoundTimer (pauseRoundTimer basePlayingRoom 135300)
        140000).timerPaused = false ∧
      computeRemaining
        (resumeRoundTimer (pauseRoundTimer basePlayingRoom 135300) 140000)
        140000 =
        max 0 (basePlayingRoom.roundDuration -
          Int.fdiv (135300 - 100000) 1000)) :=
  ⟨rfl, rfl,
    pause_resume_preserves_remaining basePlayingRoom 100000 135300 140000
      rfl rfl⟩

/-- C9: `endRound` on the final round with no final code snapshot skips
every residual-bug and validity check and unconditionally declares the
debuggers winners with reason `Fixers win! All bugs resolved!`, leaving
all other room state as it was. -/
theorem endRound_final_without_code_defaults_to_debuggers
    (parseOk : String → Bool) (shuffled : List String)
    (newCode : CodeInfo) (now : Int) (room : Room)
    (h : room.totalRounds ≤ room.currentRound) :
    endRound parseOk shuffled newCode now room none =
      { room with
        gameState := "results"
        winner := some "debuggers"
        winReason := some "Fixers win! All bugs resolved!" } := by
  simp [endRound, h]

/-- Witness for C9: `basePlayingRoom` is on its final round (round 1 of
1); ending it with no snapshot yields the unconditional debugger win. -/
theorem endRound_final_without_code_defaults_to_debuggers_witness :
    basePlayingRoom.totalRounds ≤ basePlayingRoom.currentRound ∧
    endRound (fun _ => true) [] demoCode 0 basePlayingRoom none =
      { basePlayingRoom with
        gameState := "results"
        winner := some "debuggers"
        winReason := some "Fixers win! All bugs resolved!" } :=
  ⟨by decide,
    endRound_final_without_code_defaults_to_debuggers (fun _ => true) []
      demoCode 0 basePlayingRoom (by decide)⟩

/-- C10: `resetGame` returns the room to the lobby with round counter
0, clears the round/role/vote/result fields, resets every player's
readiness, role and disabled flag, and leaves the player-map
membership, ids, names and the host assignment untouched. -/
theorem resetGame_clears_game_state_and_keeps_membership (room : Room) :
    (resetGame room).gameState = "lobby" ∧
    (resetGame room).currentRound = 0 ∧
    (resetGame room).roundStartTime = none ∧
    (resetGame room).currentCode = none ∧
    (resetGame room).bugger = none ∧
    (resetGame room).debuggers = [] ∧
    (resetGame room).buzzedPlayer = none ∧
    (resetGame room).activeVote = none ∧
    (resetGame room).winner = none ∧
    (resetGame room).winReason = none ∧
    (∀ p ∈ (resetGame room).players,
      p.isReady = false ∧ p.role = none ∧ p.disabled = false) ∧
    (resetGame room).players.map (fun p => (p.id, p.name)) =
      room.players.map (fun p => (p.id, p.name)) ∧
    (resetGame room).hostId = room.hostId := by
  refine ⟨rfl, rfl, rfl, rfl, rfl, rfl, rfl, rfl, rfl, rfl, ?_, ?_, rfl⟩
  · intro p hp
    simp only [resetGame, List.mem_map] at hp
    obtain ⟨q, _, rfl⟩ := hp
    exact ⟨rfl, rfl, rfl⟩
  · simp only [resetGame, List.map_map]
    rfl

/-- Per-element reading of the `enabledDebuggers` filter predicate of
`checkBuggerWin`: it is `false` exactly when the id names nobody in the
room or names a disabled player. -/
theorem enabled_filter_false_iff (ps : List Player) (d : String) :
    ((playersGet ps d).isSome &&
      !((playersGet ps d).map Player.disabled).getD false) = false ↔
      ∀ q, playersGet ps d = some q → q.disabled = true := by
  cases h : playersGet ps d with
  | none => simp [playersHas, h]
  | some q => cases hq : q.disabled <;> simp [playersHas, h, hq]

/-- C7: `checkBuggerWin` returns `true` exactly when the bugger is a
present, enabled player and either every debugger is disabled or gone,
or exactly two enabled players remain; in particular it fires
immediately on `twoLeftRoom`, where two enabled players remain and one
of them is the bugger. -/
theorem checkBuggerWin_iff :
    (∀ room : Room, checkBuggerWin room = true ↔
      (∃ b p, room.bugger = some b ∧
        playersGet room.players b = some p ∧ p.disabled = false) ∧
      ((∀ d ∈ room.debuggers,
          ∀ q, playersGet room.players d = some q → q.disabled = true) ∨
        (room.players.filter (fun p => !p.disabled)).length = 2)) ∧
    checkBuggerWin twoLeftRoom = true := by
  constructor
  · intro room
    simp only [checkBuggerWin]
    cases hb : room.bugger with
    | none => simp
    | some b =>
      cases hpb : playersGet room.players b with
      | none => simp [playersHas, hpb]
      | some p =>
        cases hd : p.disabled with
        | true => simp [playersHas, hpb, hd]
        | false =>
          simp only [playersHas, hpb, Option.isSome_some, Option.map_some',
            Option.getD_some, hd, Bool.not_false, Bool.and_true,
            Option.some.injEq]
          rw [show ∀ a b : Bool,
              (if a = true then true else if b = true then true else false) =
              (a || b) from by decide]
          simp only [Bool.or_eq_true, beq_iff_eq]
          have hDebs : ((room.debuggers.filter (fun id =>
              (playersGet room.players id).isSome &&
                !(Option.map Player.disabled
                  (playersGet room.players id)).getD false)).length = 0) ↔
              (∀ d ∈ room.debuggers, ∀ q,
                playersGet room.players d = some q → q.disabled = true) := by
            rw [List.length_eq_zero, List.filter_eq_nil_iff]
            constructor
            · intro h0 d hdm
              have h1 := h0 d hdm
              rw [Bool.not_eq_true, enabled_filter_false_iff] at h1
              exact h1
            · intro hall d hdm
              rw [Bool.not_eq_true, enabled_filter_false_iff]
              exact hall d hdm
          constructor
          · intro h
            exact ⟨⟨b, p, rfl, hpb, hd⟩, h.imp hDebs.mp id⟩
          · rintro ⟨-, h⟩
            exact h.imp hDebs.mpr id
  · decide

/-- Adding an element to a JS `Set` makes `contains` true. -/
theorem contains_setAdd_self (s : List String) (x : String) :
    (setAdd s x).contains x = true := by
  unfold setAdd
  split
  · next h => exact h
  · simp

/-- Setting a key in a JS `Map` makes a key lookup succeed. -/
theorem any_mapSet_self (m : List (String × String)) (k v : String) :
    (mapSet m k v).any (fun e => e.1 == k) = true := by
  unfold mapSet
  split
  · next h =>
    obtain ⟨e, he, hek⟩ := List.any_eq_true.mp h
    refine List.any_eq_true.mpr ⟨(k, v), List.mem_map.mpr ⟨e, he, ?_⟩, by simp⟩
    simp only [hek, if_pos]
  · simp

/-- Membership form of `contains_setAdd_self`. -/
theorem mem_setAdd_self (s : List String) (x : String) :
    x ∈ setAdd s x := by
  unfold setAdd
  split
  · next h => simpa using h
  · exact List.mem_append.mpr (Or.inr (List.mem_singleton.mpr rfl))

/-- Membership form of `any_mapSet_self`. -/
theorem mem_mapSet_self (m : List (String × String)) (k v : String) :
    (k, v) ∈ mapSet m k v := by
  unfold mapSet
  split
  · next h =>
    obtain ⟨e, he, hek⟩ := List.any_eq_true.mp h
    exact List.mem_map.mpr ⟨e, he, by simp [hek]⟩
  · exact List.mem_append.mpr (Or.inr (List.mem_singleton.mpr rfl))

/-- Exhaustive shape of `castBuzzVote`: every rejection returns the
untouched room together with an error, and every success extends the
open vote with the caller's entry (so the caller is afterwards recorded
in `votes` or `skips`), having passed all membership / enabledness /
no-revote / target checks. -/
theorem castBuzzVote_shape (room : Room) (voterId targetVoteId : String) :
    (∃ msg, castBuzzVote room voterId targetVoteId =
      (room, CastOutcome.errRes msg)) ∨
    (∃ v voter v1 b,
      room.activeVote = some v ∧ v.type = "vote_kick" ∧
      playersGet room.players voterId = some voter ∧
      voter.disabled = false ∧
      v.votes.any (fun e => e.1 == voterId) = false ∧
      v.skips.contains voterId = false ∧
      v1.type = "vote_kick" ∧
      (v1.votes.any (fun e => e.1 == voterId) ||
        v1.skips.contains voterId) = true ∧
      castBuzzVote room voterId targetVoteId =
        ({ room with activeVote := some v1 }, CastOutcome.okRes b) ∧
      (targetVoteId = "skip" ∨
        ∃ target, playersGet room.players targetVoteId = some target ∧
          target.disabled = false ∧ voterId ≠ targetVoteId)) := by
  rcases hv : room.activeVote with _ | v
  · exact Or.inl ⟨"No active vote", by simp [castBuzzVote, hv]⟩
  · by_cases ht : v.type = "vote_kick"
    · rcases hvoter : playersGet room.players voterId with _ | voter
      · exact Or.inl ⟨"You are not in this room",
          by simp [castBuzzVote, hv, ht, hvoter]⟩
      · by_cases hdis : voter.disabled = true
        · exact Or.inl ⟨"You are disabled and cannot vote",
            by simp [castBuzzVote, hv, ht, hvoter, hdis]⟩
        · rw [Bool.not_eq_true] at hdis
          by_cases hnv0 : v.votes.any (fun e => e.1 == voterId) = true
          · exact Or.inl ⟨"You have already voted",
              by simp [castBuzzVote, hv, ht, hvoter, hdis, hnv0]⟩
          · rw [Bool.not_eq_true] at hnv0
            by_cases hns0 : v.skips.contains voterId = true
            · have hmem : voterId ∈ v.skips := by simpa using hns0
              exact Or.inl ⟨"You have already voted",
                by simp [castBuzzVote, hv, ht, hvoter, hdis, hnv0, hmem]⟩
            · rw [Bool.not_eq_true] at hns0
              have hnvP := hnv0
              have hnsP := hns0
              simp at hnvP hnsP
              have hnvQ : ∀ x, (voterId, x) ∉ v.votes :=
                fun x hx => hnvP voterId x hx rfl
              by_cases hskip : targetVoteId = "skip"
              · refine Or.inr ⟨v, voter,
                  { v with skips := setAdd v.skips voterId },
                  decide ((room.players.filter
                    (fun p => !p.disabled)).length ≤
                    v.votes.length + (setAdd v.skips voterId).length),
                  rfl, ht, rfl, hdis, hnv0, hns0, ht, ?_, ?_, Or.inl hskip⟩
                · rw [contains_setAdd_self]
                  exact Bool.or_true _
                · simp [castBuzzVote, hv, ht, hvoter, hdis, hnvQ, hnsP,
                    hskip]
              · rcases htarget : playersGet room.players targetVoteId
                  with _ | target
                · exact Or.inl ⟨"Target player not found",
                    by simp [castBuzzVote, hv, ht, hvoter, hdis, hnvQ, hnsP,
                      hskip, htarget]⟩
                · by_cases htd : target.disabled = true
                  · exact Or.inl ⟨"Cannot vote for an already disabled player",
                      by simp [castBuzzVote, hv, ht, hvoter, hdis, hnvQ,
                        hnsP, hskip, htarget, htd]⟩
                  · rw [Bool.not_eq_true] at htd
                    by_cases hself : voterId = targetVoteId
                    · refine Or.inl ⟨"You cannot vote for yourself", ?_⟩
                      simp [castBuzzVote, hv, ht, hvoter, hdis, hskip,
                        htarget, htd, hself]
                      exact ⟨hself ▸ hnvQ, hself ▸ hnsP⟩
                    · refine Or.inr ⟨v, voter,
                        { v with
                          votes := mapSet v.votes voterId targetVoteId },
                        decide ((room.players.filter
                          (fun p => !p.disabled)).length ≤
                          (mapSet v.votes voterId targetVoteId).length +
                            v.skips.length),
                        rfl, ht, rfl, hdis, hnv0, hns0, ht, ?_, ?_,
                        Or.inr ⟨target, rfl, htd, hself⟩⟩
                      · rw [any_mapSet_self]
                        exact Bool.true_or _
                      · simp [castBuzzVote, hv, ht, hvoter, hdis, hnvQ,
                          hnsP, hskip, htarget, htd, hself]
    · exact Or.inl ⟨"No active vote", by simp [castBuzzVote, hv, ht]⟩

/-- C6: `castBuzzVote` rejects with an error and leaves the room (in
particular the open vote's tallies) unchanged whenever no vote is open,
the voter is unknown or disabled or has already voted or skipped, or —
for a target vote — the target is unknown, already disabled, or the
voter themselves; and after any successful cast, a second cast by the
same voter in the same open vote always fails and changes nothing. -/
theorem castBuzzVote_rejections :
    (∀ (room : Room) (voterId targetVoteId : String),
      (room.activeVote = none ∨
        playersGet room.players voterId = none ∨
        (∃ p, playersGet room.players voterId = some p ∧
          p.disabled = true) ∨
        (∃ v, room.activeVote = some v ∧
          (v.votes.any (fun e => e.1 == voterId) = true ∨
            v.skips.contains voterId = true)) ∨
        (targetVoteId ≠ "skip" ∧
          playersGet room.players targetVoteId = none) ∨
        (targetVoteId ≠ "skip" ∧
          ∃ p, playersGet room.players targetVoteId = some p ∧
            p.disabled = true) ∨
        (targetVoteId ≠ "skip" ∧ voterId = targetVoteId)) →
      (castBuzzVote room voterId targetVoteId).1 = room ∧
        ∃ msg, (castBuzzVote room voterId targetVoteId).2 =
          CastOutcome.errRes msg) ∧
    (∀ (room r1 : Room) (voterId targetVoteId targetVoteId2 : String)
      (b : Bool),
      castBuzzVote room voterId targetVoteId = (r1, CastOutcome.okRes b) →
      (castBuzzVote r1 voterId targetVoteId2).1 = r1 ∧
        ∃ msg, (castBuzzVote r1 voterId targetVoteId2).2 =
          CastOutcome.errRes msg) := by
  constructor
  · intro room voterId targetVoteId hcond
    rcases castBuzzVote_shape room voterId targetVoteId with
      ⟨msg, heq⟩ | ⟨v, voter, v1, b, hv, ht, hvoter, hdis, hnv, hns, _, _,
        heq, htgt⟩
    · rw [heq]
      exact ⟨rfl, msg, rfl⟩
    · exfalso
      rcases hcond with h | h | ⟨p, hp, hpd⟩ | ⟨v', hv', hvoted⟩ |
        ⟨hs, h⟩ | ⟨hs, p, hp, hpd⟩ | ⟨hs, h⟩
      · rw [h] at hv
        exact Option.noConfusion hv
      · rw [h] at hvoter
        exact Option.noConfusion hvoter
      · rw [hp] at hvoter
        cases hvoter
        rw [hpd] at hdis
        exact Bool.noConfusion hdis
      · rw [hv'] at hv
        cases hv
        rcases hvoted with hvo | hvo
        · rw [hvo] at hnv
          exact Bool.noConfusion hnv
        · rw [hvo] at hns
          exact Bool.noConfusion hns
      · rcases htgt with hsk | ⟨target, htp, _, _⟩
        · exact hs hsk
        · rw [htp] at h
          exact Option.noConfusion h
      · rcases htgt with hsk | ⟨target, htp, htd, _⟩
        · exact hs hsk
        · rw [hp] at htp
          cases htp
          rw [hpd] at htd
          exact Bool.noConfusion htd
      · rcases htgt with hsk | ⟨target, _, _, hne⟩
        · exact hs hsk
        · exact hne h
  · intro room r1 voterId targetVoteId targetVoteId2 b heq
    rcases castBuzzVote_shape room voterId targetVoteId with
      ⟨msg, heq'⟩ | ⟨v, voter, v1, b', hv, ht, hvoter, hdis, hnv, hns,
        ht1, hvoted1, heq', htgt⟩
    · rw [heq'] at heq
      simp at heq
    · rw [heq'] at heq
      injection heq with h1 h2
      subst h1
      have hcast : castBuzzVote { room with activeVote := some v1 }
          voterId targetVoteId2 =
          ({ room with activeVote := some v1 },
            CastOutcome.errRes "You have already voted") := by
        cases hB : v1.votes.any (fun e => e.1 == voterId) with
        | true => simp [castBuzzVote, ht1, hvoter, hdis, hB]
        | false =>
          have hcon : v1.skips.contains voterId = true := by
            have h3 := hvoted1
            rw [hB, Bool.false_or] at h3
            exact h3
          have hmem : voterId ∈ v1.skips := by simpa using hcon
          simp [castBuzzVote, ht1, hvoter, hdis, hB, hmem]
      rw [hcast]
      exact ⟨rfl, "You have already voted", rfl⟩

/-- Witness for C6 at a concrete input: in `basePlayingRoom` no vote is
open, so Alice's attempt to vote for Bob is rejected and the room is
returned unchanged. -/
theorem castBuzzVote_rejections_witness :
    (castBuzzVote basePlayingRoom "p1" "p2").1 = basePlayingRoom ∧
    ∃ msg, (castBuzzVote basePlayingRoom "p1" "p2").2 =
      CastOutcome.errRes msg :=
  castBuzzVote_rejections.1 basePlayingRoom "p1" "p2" (Or.inl rfl)

/-- C8: the claim states that a divide body lacking the zero check (or
a squareRoot body lacking the negative check) in the submitted final
code makes the bugger win with the defect listed.  The code contradicts
this on its own round data: in the sample's fully bugged code both
guards are stripped (no `=== 0` and no `< 0` anywhere), yet both regex
checks fail to match — inside each method a brace from the
`history.push` template literal precedes any `return`, so
`[^}]*return` cannot reach it — and since the bugged code is valid
JavaScript (the parse oracle holds), `endRound` on the final round
declares the debuggers winners with `Fixers win! All bugs resolved!`. -/
theorem endRound_misses_residual_bugs :
    strIncludes buggedCalculatorCode "=== 0" = false ∧
    strIncludes buggedCalculatorCode "< 0" = false ∧
    findGuardedMatch divideHeader buggedCalculatorCode.data = none ∧
    findGuardedMatch squareRootHeader buggedCalculatorCode.data = none ∧
    (endRound (fun _ => true) [] demoCode 0 basePlayingRoom
      (some buggedCalculatorCode)).winner = some "debuggers" ∧
    (endRound (fun _ => true) [] demoCode 0 basePlayingRoom
      (some buggedCalculatorCode)).winReason =
      some "Fixers win! All bugs resolved!" :=
  ⟨rfl, rfl, rfl, rfl, rfl, rfl⟩

/-- The fresh room of `createRoom` satisfies the invariant: no vote is
open and the game is in the lobby. -/
theorem roomInv_init (code hostId hostName : String) (now : Int) :
    RoomInv (createRoom code hostId hostName now) := by
  refine ⟨fun hh => ?_, fun hh => ?_⟩
  · simp [createRoom] at hh
  · simp [createRoom] at hh

/-- `addPlayerToRoom` touches only players, host and the idle timer. -/
theorem roomInv_addPlayer (r : Room) (pid pname : String)
    (h : RoomInv r) : RoomInv (addPlayerToRoom r pid pname).1 := by
  unfold addPlayerToRoom
  dsimp only
  repeat' split
  all_goals exact h

/-- `readyToggle` touches only the players. -/
theorem roomInv_ready (r : Room) (pid : String) (h : RoomInv r) :
    RoomInv (readyToggle r pid) := by
  unfold readyToggle
  split
  · exact h
  · exact h

/-- `startGame` either rejects, or starts a round with no open vote and
a fresh round start time. -/
theorem roomInv_startGame (r : Room) (shuffled : List String)
    (newCode : CodeInfo) (now : Int) (h : RoomInv r) :
    RoomInv (startGame r shuffled newCode now).1 := by
  unfold startGame
  split
  · exact h
  · unfold startRound assignRoles
    split <;> exact ⟨fun hh => absurd hh (by simp), fun hh => by simp⟩

/-- `pauseRoundTimer` invoked mid-round leaves everything but the timer
fields alone and always ends paused. -/
theorem pauseRoundTimer_pauses (r : Room) (now st : Int)
    (hst : r.roundStartTime = some st) :
    (pauseRoundTimer r now).timerPaused = true ∧
    (pauseRoundTimer r now).activeVote = r.activeVote ∧
    (pauseRoundTimer r now).roundStartTime = r.roundStartTime ∧
    (pauseRoundTimer r now).gameState = r.gameState := by
  unfold pauseRoundTimer
  by_cases hp : r.timerPaused = true
  · simp [hp]
  · rw [Bool.not_eq_true] at hp
    simp [hp, hst]

/-- `resumeRoundTimer` leaves the vote and game state alone and either
leaves the start time or replaces it by a fresh one. -/
theorem resumeRoundTimer_fields (r : Room) (now : Int) :
    (resumeRoundTimer r now).activeVote = r.activeVote ∧
    (resumeRoundTimer r now).gameState = r.gameState ∧
    ((resumeRoundTimer r now).roundStartTime = r.roundStartTime ∨
      (resumeRoundTimer r now).roundStartTime.isSome) := by
  unfold resumeRoundTimer
  split
  · exact ⟨rfl, rfl, Or.inl rfl⟩
  · split
    · exact ⟨rfl, rfl, Or.inl rfl⟩
    · exact ⟨rfl, rfl, Or.inr (by simp)⟩

/-- The buzz handler preserves the invariant: a successful buzz both
opens the vote and pauses the clock in the same event-loop task. -/
theorem roomInv_buzz (r : Room) (pid : String) (now : Int)
    (h : RoomInv r) : RoomInv (buzzAction r pid now) := by
  by_cases hg : r.gameState = "playing"
  · rcases hp : playersGet r.players pid with _ | player
    · have heq : buzzAction r pid now =
          { r with buzzedPlayer := some pid } := by
        simp [buzzAction, handleBuzz, hg, hp]
      rw [heq]
      exact ⟨h.1, h.2⟩
    · by_cases hd : player.disabled = true
      · have heq : buzzAction r pid now = r := by
          simp [buzzAction, handleBuzz, hg, hp, hd]
        rw [heq]
        exact h
      · rw [Bool.not_eq_true] at hd
        have hstart : r.roundStartTime.isSome := h.2 hg
        rcases hst : r.roundStartTime with _ | st
        · rw [hst] at hstart
          simp at hstart
        · have heq : buzzAction r pid now =
              pauseRoundTimer
                { r with
                  buzzedPlayer := some pid
                  activeVote := some
                    { initiatorId := pid
                      initiatorName := player.name
                      type := "vote_kick"
                      votes := []
                      skips := []
                      startTime := now
                      duration := 60000 } } now := by
            simp [buzzAction, handleBuzz, hg, hp, hd]
          rw [heq]
          obtain ⟨hpt, hav, hrs, hgs⟩ :=
            pauseRoundTimer_pauses
              { r with
                buzzedPlayer := some pid
                activeVote := some
                  { initiatorId := pid
                    initiatorName := player.name
                    type := "vote_kick"
                    votes := []
                    skips := []
                    startTime := now
                    duration := 60000 } } now st hst
          refine ⟨fun _ => hpt, fun _ => ?_⟩
          rw [hrs]
          show r.roundStartTime.isSome
          rw [hst]
          simp
  · have heq : buzzAction r pid now = r := by
      simp [buzzAction, handleBuzz, hg]
    rw [heq]
    exact h

/-- A vote cast never changes the timer, game state or vote openness
(the open vote is only extended). -/
theorem roomInv_cast (r : Room) (voterId targetVoteId : String)
    (h : RoomInv r) : RoomInv (castBuzzVote r voterId targetVoteId).1 := by
  rcases castBuzzVote_shape r voterId targetVoteId with
    ⟨msg, heq⟩ | ⟨v, voter, v1, b, hv, _, _, _, _, _, _, _, heq, _⟩
  · rw [heq]
    exact h
  · rw [heq]
    exact ⟨fun _ => h.1 (by simp [hv]), h.2⟩

/-- Vote resolution into a game-over state keeps the invariant: the
vote is cleared and the game leaves the playing state. -/
theorem roomInv_results_clear (r1 : Room) :
    RoomInv (clearBuzzVote { r1 with gameState := "results" }) :=
  ⟨fun hh => absurd hh (by simp [clearBuzzVote]),
    fun hh => absurd hh (by simp [clearBuzzVote])⟩

/-- Vote resolution that resumes play keeps the invariant: the vote is
cleared before the clock is resumed. -/
theorem roomInv_resume_clear (r1 : Room) (now : Int)
    (h2 : r1.gameState = "playing" → r1.roundStartTime.isSome) :
    RoomInv (resumeRoundTimer (clearBuzzVote r1) now) := by
  obtain ⟨ha, hg, hrs⟩ := resumeRoundTimer_fields (clearBuzzVote r1) now
  refine ⟨fun hh => ?_, fun hh => ?_⟩
  · rw [ha] at hh
    simp [clearBuzzVote] at hh
  · rw [hg] at hh
    have hh1 : r1.gameState = "playing" := by
      simpa [clearBuzzVote] using hh
    rcases hrs with h3 | h3
    · rw [h3]
      show r1.roundStartTime.isSome
      exact h2 hh1
    · exact h3

/-- `handleBuzzVoteEnd` preserves the invariant on every resolution
path. -/
theorem roomInv_resolve (r : Room) (now : Int) (h : RoomInv r) :
    RoomInv (handleBuzzVoteEnd r now) := by
  unfold handleBuzzVoteEnd
  dsimp only
  repeat' split
  all_goals first
    | exact h
    | exact roomInv_results_clear _
    | exact roomInv_resume_clear _ now h.2
/-- `endRound` preserves the invariant: the results branch leaves the
playing state, and the next-round branch clears the vote and restarts
the clock. -/
theorem roomInv_roundEnd (r : Room) (parseOk : String → Bool)
    (shuffled : List String) (newCode : CodeInfo) (now : Int)
    (finalCode : Option String) (h : RoomInv r) :
    RoomInv (endRound parseOk shuffled newCode now r finalCode) := by
  unfold endRound startRound assignRoles
  dsimp only
  repeat' split
  all_goals first
    | exact ⟨h.1, fun hh => absurd hh (by simp)⟩
    | exact ⟨fun hh => absurd hh (by simp), fun hh => by simp⟩

/-- `removePlayerFromRoom` touches only players, host and the idle
timer. -/
theorem roomInv_removePlayer (r : Room) (pid : String) (h : RoomInv r) :
    RoomInv (removePlayerFromRoom r pid) := by
  unfold removePlayerFromRoom
  dsimp only
  repeat' split
  all_goals exact h

/-- Leave/disconnect preserves the invariant (the open vote, if any, is
cleared, making the first conjunct vacuous). -/
theorem roomInv_leave (r : Room) (pid : String) (h : RoomInv r) :
    RoomInv (leaveRoomAction r pid) := by
  unfold leaveRoomAction
  dsimp only
  split
  · exact roomInv_removePlayer _ pid
      ⟨fun hh => absurd hh (by simp [clearBuzzVote]), h.2⟩
  · exact roomInv_removePlayer _ pid h

/-- `resetGame` returns to the lobby with no vote. -/
theorem roomInv_reset (r : Room) : RoomInv (resetGame r) :=
  ⟨fun hh => absurd hh (by simp [resetGame]),
    fun hh => absurd hh (by simp [resetGame])⟩

/-- Every reachable room satisfies the mutual-exclusion invariant. -/
theorem roomInv_reachable (r : Room) (h : Reachable r) : RoomInv r := by
  induction h with
  | init code hostId hostName now => exact roomInv_init code hostId hostName now
  | step hr hs ih =>
    cases hs with
    | join pid pname => exact roomInv_addPlayer _ pid pname ih
    | ready pid => exact roomInv_ready _ pid ih
    | start shuffled newCode now => exact roomInv_startGame _ shuffled newCode now ih
    | buzz pid now => exact roomInv_buzz _ pid now ih
    | cast voterId targetVoteId => exact roomInv_cast _ voterId targetVoteId ih
    | resolve now => exact roomInv_resolve _ now ih
    | roundEnd parseOk shuffled newCode now finalCode =>
      exact roomInv_roundEnd _ parseOk shuffled newCode now finalCode ih
    | leave pid => exact roomInv_leave _ pid ih
    | reset => exact roomInv_reset _

/-- C4: in every room reachable by event-loop steps from a fresh
`createRoom` state, an open `activeVote` implies the round timer is
paused — the vote and a running round clock are mutually exclusive, and
every operation (join, ready, game start, buzz, vote cast, vote
resolution, round end, leave/disconnect, reset) preserves this. -/
theorem activeVote_implies_timerPaused (r : Room) (h : Reachable r) :
    r.activeVote.isSome → r.timerPaused = true :=
  (roomInv_reachable r h).1

/-- Witness for C4: the reachable state `demoRoom` (create, two joins,
game start, buzz) has an open vote, and the theorem yields that its
timer is paused. -/
theorem activeVote_implies_timerPaused_witness :
    demoRoom.activeVote.isSome = true ∧ demoRoom.timerPaused = true := by
  constructor
  · decide
  · exact activeVote_implies_timerPaused demoRoom
      (Reachable.step (Reachable.step (Reachable.step (Reachable.step
        (Reachable.init "ROOM" "p1" "Alice" 0)
        (Step.join _ "p2" "Bob")) (Step.join _ "p3" "Carol"))
        (Step.start _ ["p2", "p1", "p3"] demoCode 100000))
        (Step.buzz _ "p1" 100500))
      (by decide)

/-- Proof-side projection of the tally loop: only the counts (not the
ids) drive the max / second-max components. -/
def topTwoNStep (acc : Nat × Nat) (c : Nat) : Nat × Nat :=
  if c > acc.1 then (c, acc.1) else if c > acc.2 then (acc.1, c) else acc

/-- The max and second-max components of the tally loop coincide with
the count-only fold. -/
theorem topTwo_fst_snd (l : List (String × Nat)) :
    ∀ acc : Nat × Nat × Option String,
      ((l.foldl topTwoStep acc).1, (l.foldl topTwoStep acc).2.1) =
        (l.map Prod.snd).foldl topTwoNStep (acc.1, acc.2.1) := by
  induction l with
  | nil => intro acc; rfl
  | cons e t ih =>
    intro acc
    simp only [List.foldl_cons, List.map_cons]
    rw [ih]
    congr 1
    unfold topTwoStep topTwoNStep
    by_cases h1 : e.2 > acc.1
    · simp [h1]
    · by_cases h2 : e.2 > acc.2.1 <;> simp [h1, h2]

/-- The first component of the count-only fold is the running
maximum. -/
theorem foldl_topTwoN_fst (cs : List Nat) :
    ∀ m s : Nat, (cs.foldl topTwoNStep (m, s)).1 = cs.foldl max m := by
  induction cs with
  | nil => intros; rfl
  | cons c t ih =>
    intro m s
    simp only [List.foldl_cons]
    by_cases h1 : c > m
    · rw [show topTwoNStep (m, s) c = (c, m) from by
        simp [topTwoNStep, h1]]
      rw [ih, Nat.max_eq_right (le_of_lt h1)]
    · by_cases h2 : c > s
      · rw [show topTwoNStep (m, s) c = (m, c) from by
          simp [topTwoNStep, h1, h2]]
        rw [ih, Nat.max_eq_left (le_of_not_lt h1)]
      · rw [show topTwoNStep (m, s) c = (m, s) from by
          simp [topTwoNStep, h1, h2]]
        rw [ih, Nat.max_eq_left (le_of_not_lt h1)]

/-- The seed is below the running maximum. -/
theorem le_foldl_max (cs : List Nat) : ∀ m : Nat, m ≤ cs.foldl max m := by
  induction cs with
  | nil => intro m; exact le_refl m
  | cons c t ih =>
    intro m
    exact le_trans (Nat.le_max_left m c) (ih (max m c))

/-- Every element is below the running maximum. -/
theorem mem_le_foldl_max (cs : List Nat) :
    ∀ m x, x ∈ cs → x ≤ cs.foldl max m := by
  induction cs with
  | nil => intro m x hx; cases hx
  | cons c t ih =>
    intro m x hx
    rcases List.mem_cons.mp hx with rfl | hx'
    · exact le_trans (Nat.le_max_right m x) (le_foldl_max t _)
    · exact ih _ x hx'

/-- Core property of the second-max fold: the second component stays
strictly below the maximum exactly when the seed does and the maximum
is attained exactly once among seed and elements. -/
theorem topTwoN_snd_lt_iff (cs : List Nat) :
    ∀ m s : Nat, s ≤ m →
      ((cs.foldl topTwoNStep (m, s)).2 < cs.foldl max m ↔
        s < cs.foldl max m ∧ (m :: cs).count (cs.foldl max m) = 1) := by
  induction cs with
  | nil =>
    intro m s hsm
    simp [List.count_cons]
  | cons c t ih =>
    intro m s hsm
    simp only [List.foldl_cons]
    by_cases h1 : c > m
    · -- c beats the current maximum
      rw [show topTwoNStep (m, s) c = (c, m) from by
        simp [topTwoNStep, h1]]
      rw [Nat.max_eq_right (le_of_lt h1)]
      have hFm : m < t.foldl max c := lt_of_lt_of_le h1 (le_foldl_max t c)
      rw [ih c m (le_of_lt h1), List.count_cons_of_ne (ne_of_gt hFm)]
      exact ⟨fun h3 => ⟨lt_of_le_of_lt hsm hFm, h3.2⟩,
        fun h3 => ⟨hFm, h3.2⟩⟩
    · by_cases h2 : c > s
      · -- c slots into the second place
        rw [show topTwoNStep (m, s) c = (m, c) from by
          simp [topTwoNStep, h1, h2]]
        rw [Nat.max_eq_left (le_of_not_lt h1)]
        rw [ih m c (le_of_not_lt h1)]
        have hcF : c ≤ t.foldl max m :=
          le_trans (le_of_not_lt h1) (le_foldl_max t m)
        have hsF : s < t.foldl max m := lt_of_lt_of_le h2 hcF
        by_cases hceq : c = t.foldl max m
        · have hmF : m = t.foldl max m :=
            le_antisymm (le_foldl_max t m) (hceq ▸ le_of_not_lt h1)
          constructor
          · rintro ⟨hcf, -⟩
            exact absurd hcf (by omega)
          · rintro ⟨-, hcount⟩
            exfalso
            have e1 : (c == t.foldl max m) = true := by simp [hceq]
            have e2 : (m == t.foldl max m) = true := by simp [← hmF]
            rw [List.count_cons, List.count_cons, e1, e2] at hcount
            simp at hcount
        · have hclt : c < t.foldl max m := lt_of_le_of_ne hcF hceq
          have hcc : (m :: c :: t).count (t.foldl max m) =
              (m :: t).count (t.foldl max m) := by
            have e1 : (c == t.foldl max m) = false :=
              beq_eq_false_iff_ne.mpr (Ne.symm (ne_of_gt hclt))
            rw [List.count_cons, List.count_cons, List.count_cons, e1]
            simp
          rw [hcc]
          exact ⟨fun h3 => ⟨hsF, h3.2⟩, fun h3 => ⟨hclt, h3.2⟩⟩
      · -- c changes nothing
        rw [show topTwoNStep (m, s) c = (m, s) from by
          simp [topTwoNStep, h1, h2]]
        rw [Nat.max_eq_left (le_of_not_lt h1)]
        rw [ih m s hsm]
        by_cases hsF : s < t.foldl max m
        · have hclt : c < t.foldl max m :=
            lt_of_le_of_lt (le_of_not_lt h2) hsF
          have hcc : (m :: c :: t).count (t.foldl max m) =
              (m :: t).count (t.foldl max m) := by
            have e1 : (c == t.foldl max m) = false :=
              beq_eq_false_iff_ne.mpr (Ne.symm (ne_of_gt hclt))
            rw [List.count_cons, List.count_cons, List.count_cons, e1]
            simp
          rw [hcc]
        · exact ⟨fun h3 => absurd h3.1 hsF, fun h3 => absurd h3.1 hsF⟩

/-- Characterisation of `topTwo` from the zero seed: the first
component is the maximum count, and the strict gap between the top two
holds exactly when the maximum is positive and attained once. -/
theorem topTwo_characterization (l : List (String × Nat)) :
    (topTwo l).1 = (l.map Prod.snd).foldl max 0 ∧
    ((topTwo l).2.1 < (topTwo l).1 ↔
      0 < (topTwo l).1 ∧
        (l.map Prod.snd).count ((topTwo l).1) = 1) := by
  have hproj := topTwo_fst_snd l (0, 0, none)
  have h1 : (topTwo l).1 =
      ((l.map Prod.snd).foldl topTwoNStep (0, 0)).1 :=
    congrArg Prod.fst hproj
  have h2 : (topTwo l).2.1 =
      ((l.map Prod.snd).foldl topTwoNStep (0, 0)).2 :=
    congrArg Prod.snd hproj
  have hfst := foldl_topTwoN_fst (l.map Prod.snd) 0 0
  have hchar := topTwoN_snd_lt_iff (l.map Prod.snd) 0 0 (le_refl 0)
  constructor
  · rw [h1, hfst]
  · rw [h1, h2, hfst, hchar]
    constructor
    · rintro ⟨h0, hc⟩
      refine ⟨h0, ?_⟩
      rwa [List.count_cons_of_ne (ne_of_gt h0)] at hc
    · rintro ⟨h0, hc⟩
      exact ⟨h0, by rwa [List.count_cons_of_ne (ne_of_gt h0)]⟩

/-- `bumpCount` keeps the target keys duplicate-free. -/
theorem bumpCount_keys_nodup (acc : List (String × Nat)) (t : String)
    (h : (acc.map Prod.fst).Nodup) :
    ((bumpCount acc t).map Prod.fst).Nodup := by
  unfold bumpCount
  split
  · next hmem =>
    have hkeys : (acc.map (fun e =>
        if e.1 == t then (e.1, e.2 + 1) else e)).map Prod.fst =
        acc.map Prod.fst := by
      rw [List.map_map]
      apply List.map_congr_left
      intro e _
      by_cases hc : e.1 = t <;> simp [hc]
    rw [hkeys]
    exact h
  · next hmem =>
    rw [List.map_append]
    simp only [List.map_cons, List.map_nil]
    refine List.Nodup.append h (List.nodup_singleton t) ?_
    intro x hx hx'
    rw [List.mem_singleton] at hx'
    subst hx'
    obtain ⟨e, he, hek⟩ := List.mem_map.mp hx
    exact hmem (List.any_eq_true.mpr ⟨e, he, by simp [hek]⟩)

/-- The tally built by `getBuzzVoteResult` has one entry per target. -/
theorem voteCountOf_keys_nodup (ts : List String) :
    ((voteCountOf ts).map Prod.fst).Nodup := by
  suffices h : ∀ acc : List (String × Nat), (acc.map Prod.fst).Nodup →
      ((ts.foldl bumpCount acc).map Prod.fst).Nodup from h [] (by simp)
  induction ts with
  | nil => intro acc h; exact h
  | cons a t ih =>
    intro acc h
    exact ih _ (bumpCount_keys_nodup acc a h)

/-- On a duplicate-free tally bounded by `F`, the count of `F` among
the values is one exactly when a single entry attains `F` and every
other entry is strictly below it. -/
theorem count_map_snd_eq_one_iff (l : List (String × Nat)) :
    ∀ F : Nat, l.Nodup → (∀ e ∈ l, e.2 ≤ F) →
      ((l.map Prod.snd).count F = 1 ↔
        ∃ e, e ∈ l ∧ e.2 = F ∧
          ∀ e', e' ∈ l → e' ≠ e → e'.2 < F) := by
  induction l with
  | nil => intro F _ _; simp
  | cons a t ih =>
    intro F hnd hbd
    obtain ⟨ha, ht⟩ := List.nodup_cons.mp hnd
    by_cases hae : a.2 = F
    · constructor
      · intro hc
        have e2 : (a.2 == F) = true := by simp [hae]
        rw [List.map_cons, List.count_cons, e2] at hc
        simp only [if_pos] at hc
        have htc : (t.map Prod.snd).count F = 0 := by omega
        refine ⟨a, List.mem_cons_self a t, hae, ?_⟩
        intro e' he' hne
        rcases List.mem_cons.mp he' with rfl | he''
        · exact absurd rfl hne
        · have hneF : e'.2 ≠ F := fun hEq =>
            (List.count_eq_zero.mp htc)
              (hEq ▸ List.mem_map_of_mem Prod.snd he'')
          exact lt_of_le_of_ne (hbd e' (List.mem_cons_of_mem a he'')) hneF
      · rintro ⟨e, he, he2, hall⟩
        have hea : e = a := by
          by_contra hne
          have := hall a (List.mem_cons_self a t)
            (fun hcontra => hne hcontra.symm)
          omega
        subst e
        have htc : (t.map Prod.snd).count F = 0 := by
          rw [List.count_eq_zero]
          intro hFm
          obtain ⟨e', he', hE⟩ := List.mem_map.mp hFm
          have := hall e' (List.mem_cons_of_mem a he')
            (fun hcontra => ha (hcontra ▸ he'))
          omega
        have e2 : (a.2 == F) = true := by simp [hae]
        rw [List.map_cons, List.count_cons, e2, htc]
        simp
    · have e2 : (a.2 == F) = false := beq_eq_false_iff_ne.mpr hae
      rw [List.map_cons, List.count_cons, e2]
      simp only [Bool.false_eq_true, if_false, Nat.add_zero]
      rw [ih F ht (fun e he => hbd e (List.mem_cons_of_mem a he))]
      constructor
      · rintro ⟨e, he, he2, hall⟩
        refine ⟨e, List.mem_cons_of_mem a he, he2, ?_⟩
        intro e' he' hne
        rcases List.mem_cons.mp he' with rfl | he''
        · exact lt_of_le_of_ne (hbd e' (List.mem_cons_self _ _)) hae
        · exact hall e' he'' hne
      · rintro ⟨e, he, he2, hall⟩
        rcases List.mem_cons.mp he with rfl | he'
        · exact absurd he2 hae
        · exact ⟨e, he', he2,
            fun e' he'' hne => hall e' (List.mem_cons_of_mem a he'') hne⟩

/-- C3: for every open vote, `getBuzzVoteResult` tallies per-target
counts, takes `maxVotes` as the highest count, computes
`hasClearMajority = maxVotes > 0 && maxVotes > secondMaxVotes`, and
this flag holds exactly when a single target's count is positive and
strictly exceeds every other target's count — so it is false whenever
no target-votes were cast or the top two counts tie. -/
theorem getBuzzVoteResult_majority (room : Room) (vote : BuzzVote)
    (hv : room.activeVote = some vote) (res : VoteResult)
    (hres : getBuzzVoteResult room = some res) :
    res.voteCount = voteCountOf (vote.votes.map Prod.snd) ∧
    res.maxVotes = (topTwo res.voteCount).1 ∧
    res.hasClearMajority =
      (decide (0 < res.maxVotes) &&
        decide ((topTwo res.voteCount).2.1 < res.maxVotes)) ∧
    res.maxVotes = (res.voteCount.map Prod.snd).foldl max 0 ∧
    (res.hasClearMajority = true ↔
      0 < res.maxVotes ∧
        ∃ e, e ∈ res.voteCount ∧ e.2 = res.maxVotes ∧
          ∀ e', e' ∈ res.voteCount → e' ≠ e → e'.2 < res.maxVotes) := by
  unfold getBuzzVoteResult at hres
  rw [hv] at hres
  dsimp only at hres
  rw [Option.some.injEq] at hres
  subst hres
  refine ⟨rfl, rfl, rfl,
    (topTwo_characterization (voteCountOf (vote.votes.map Prod.snd))).1,
    ?_⟩
  have hnodup : (voteCountOf (vote.votes.map Prod.snd)).Nodup :=
    List.Nodup.of_map Prod.fst
      (voteCountOf_keys_nodup (vote.votes.map Prod.snd))
  have hbound : ∀ e ∈ voteCountOf (vote.votes.map Prod.snd),
      e.2 ≤ (topTwo (voteCountOf (vote.votes.map Prod.snd))).1 := by
    intro e he
    rw [(topTwo_characterization
      (voteCountOf (vote.votes.map Prod.snd))).1]
    exact mem_le_foldl_max _ 0 e.2 (List.mem_map_of_mem Prod.snd he)
  constructor
  · intro hb
    rw [Bool.and_eq_true, decide_eq_true_eq, decide_eq_true_eq] at hb
    obtain ⟨h0, hS⟩ := hb
    obtain ⟨-, hcount⟩ := (topTwo_characterization
      (voteCountOf (vote.votes.map Prod.snd))).2.mp hS
    exact ⟨h0, (count_map_snd_eq_one_iff _ _ hnodup hbound).mp hcount⟩
  · rintro ⟨h0, hex⟩
    have hcount := (count_map_snd_eq_one_iff _ _ hnodup hbound).mpr hex
    have hS := (topTwo_characterization
      (voteCountOf (vote.votes.map Prod.snd))).2.mpr ⟨h0, hcount⟩
    rw [Bool.and_eq_true, decide_eq_true_eq, decide_eq_true_eq]
    exact ⟨h0, hS⟩

/-- Witness for C3 at the spec scenario: three enabled players, one
votes Alice, one votes Bob, one skips — `maxVotes = 1`,
`secondMaxVotes = 1`, `hasClearMajority = false`, and the theorem's
characterisation holds at this input. -/
theorem getBuzzVoteResult_majority_witness :
    scenarioRoom.activeVote = some scenarioVote ∧
    (getBuzzVoteResult scenarioRoom).map VoteResult.maxVotes = some 1 ∧
    (topTwo (voteCountOf (scenarioVote.votes.map Prod.snd))).2.1 = 1 ∧
    (getBuzzVoteResult scenarioRoom).map VoteResult.hasClearMajority =
      some false ∧
    (scenarioRes.voteCount =
      voteCountOf (scenarioVote.votes.map Prod.snd) ∧
    scenarioRes.maxVotes = (topTwo scenarioRes.voteCount).1 ∧
    scenarioRes.hasClearMajority =
      (decide (0 < scenarioRes.maxVotes) &&
        decide ((topTwo scenarioRes.voteCount).2.1 <
          scenarioRes.maxVotes)) ∧
    scenarioRes.maxVotes =
      (scenarioRes.voteCount.map Prod.snd).foldl max 0 ∧
    (scenarioRes.hasClearMajority = true ↔
      0 < scenarioRes.maxVotes ∧
        ∃ e, e ∈ scenarioRes.voteCount ∧ e.2 = scenarioRes.maxVotes ∧
          ∀ e', e' ∈ scenarioRes.voteCount → e' ≠ e →
            e'.2 < scenarioRes.maxVotes)) :=
  ⟨rfl, by decide, by decide, by decide,
    getBuzzVoteResult_majority scenarioRoom scenarioVote rfl scenarioRes
      (by decide)⟩

end CodeRed
